import Mathlib

/-!
Shallow embedding of the ranking/matchmaking engine of the HotOrNot plugin
(`src/plugins/hotornot/hotornot.js`): the rating-update algorithm
(`handleComparison`, `finalizeGauntletLoss`), the Gauntlet run-state
transitions of `handleChooseItem`, the falling-phase pair selection of
`fetchGauntletPairScenes`, and the mode-switch / skip handlers installed by
`openRankingModal`.  JavaScript numbers that hold ratings are modelled as
integers (`ℤ`); the transcendental ELO core (`Math.pow`, `Math.round`) is
modelled over `ℝ` with Mathlib's `round` (which, like `Math.round`, maps
`x` to `⌊x + 1/2⌋`).  JS truthiness defaulting (`x || 50`) is modelled
explicitly.
-/

namespace HotOrNot

/-- The three comparison modes held in `currentMode`. -/
inductive Mode
  | swiss
  | gauntlet
  | champion
deriving DecidableEq, Repr

/-- An entity (scene / performer / image): a stable id plus the nullable
`rating100` field. -/
structure Entity where
  id : String
  rating100 : Option ℤ
deriving DecidableEq, Repr

/-- JS `x || 50` on a nullable integer: `null`/`undefined` and the falsy
value `0` both default to `50` (lines 594-595 and the
`parseInt(...) || 50` call sites). -/
def jsDefault50 : Option ℤ → ℤ
  | none => 50
  | some v => if v = 0 then 50 else v

/-- JS `x || 1` on a nullable integer (the `(opponentRank || 1)` in the
falling-win branch of `handleChooseItem`, line 2121). -/
def jsDefault1 : Option ℤ → ℤ
  | none => 1
  | some v => if v = 0 then 1 else v

/-- The truthiness test `gauntletChampion && x === gauntletChampion.id`. -/
def isChampionId : Option Entity → String → Bool
  | some c, x => decide (x = c.id)
  | none, _ => false

/-- The truthiness test
`gauntletFalling && gauntletFallingItem && x === gauntletFallingItem.id`. -/
def isFallingId : Bool → Option Entity → String → Bool
  | falling, some f, x => falling && decide (x = f.id)
  | _, none, _ => false

/-- `expectedWinner = 1 / (1 + Math.pow(10, ratingDiff / 40))` with
`ratingDiff = loserRating - winnerRating` (lines 597, 610, 627). -/
noncomputable def expectedWinner (winnerRating loserRating : ℤ) : ℝ :=
  1 / (1 + (10 : ℝ) ^ ((((loserRating - winnerRating : ℤ) : ℝ)) / 40))

/-- `Math.max(1, Math.round(kFactor * (1 - expectedWinner)))` with
`kFactor = 8` (lines 615, 630). -/
noncomputable def eloGain (winnerRating loserRating : ℤ) : ℤ :=
  max 1 (round ((8 : ℝ) * (1 - expectedWinner winnerRating loserRating)))

/-- `Math.max(1, Math.round(kFactor * expectedWinner))` with `kFactor = 8`
(lines 618, 631). -/
noncomputable def eloLoss (winnerRating loserRating : ℤ) : ℤ :=
  max 1 (round ((8 : ℝ) * expectedWinner winnerRating loserRating))

/-- The value of the local `winnerGain` after the mode branch of
`handleComparison` (lines 599-632): in Swiss mode the ELO gain always
applies; in Gauntlet/Champion mode it applies only when the winner is the
current champion or the falling item, and is `0` otherwise. -/
noncomputable def winnerGain (mode : Mode) (champ : Option Entity) (falling : Bool)
    (fallingItem : Option Entity) (winnerId : String) (winnerRating loserRating : ℤ) : ℤ :=
  match mode with
  | .swiss => eloGain winnerRating loserRating
  | _ =>
    if isChampionId champ winnerId || isFallingId falling fallingItem winnerId then
      eloGain winnerRating loserRating
    else 0

/-- The value of the local `loserLoss` after the mode branch of
`handleComparison` (lines 599-632): in Swiss mode the ELO loss always
applies; in Gauntlet/Champion mode it applies only when the loser is the
current champion or the falling item, except that a non-active loser at
rank 1 loses the flat value `1` (lines 621-624). -/
noncomputable def loserLoss (mode : Mode) (champ : Option Entity) (falling : Bool)
    (fallingItem : Option Entity) (loserId : String) (loserRank : Option ℤ)
    (winnerRating loserRating : ℤ) : ℤ :=
  match mode with
  | .swiss => eloLoss winnerRating loserRating
  | _ =>
    if isChampionId champ loserId || isFallingId falling fallingItem loserId then
      eloLoss winnerRating loserRating
    else if loserRank = some 1 then 1
    else 0

/-- The record returned by `handleComparison` (line 644). -/
structure CompResult where
  newWinnerRating : ℤ
  newLoserRating : ℤ
  winnerChange : ℤ
  loserChange : ℤ

/-- `handleComparison(winnerId, loserId, winnerCurrentRating,
loserCurrentRating, loserRank)` (lines 593-645), with the ambient state
`currentMode`, `gauntletChampion`, `gauntletFalling`, `gauntletFallingItem`
passed explicitly.  Ratings default through `|| 50`; the computed new
ratings are clamped to `[1, 100]` (lines 634-635). -/
noncomputable def handleComparison (mode : Mode) (champ : Option Entity) (falling : Bool)
    (fallingItem : Option Entity) (winnerId loserId : String)
    (winnerCurrentRating loserCurrentRating : Option ℤ) (loserRank : Option ℤ) : CompResult :=
  let winnerRating := jsDefault50 winnerCurrentRating
  let loserRating := jsDefault50 loserCurrentRating
  let g := winnerGain mode champ falling fallingItem winnerId winnerRating loserRating
  let s := loserLoss mode champ falling fallingItem loserId loserRank winnerRating loserRating
  let newWinnerRating := min 100 (max 1 (winnerRating + g))
  let newLoserRating := min 100 (max 1 (loserRating - s))
  ⟨newWinnerRating, newLoserRating, newWinnerRating - winnerRating, newLoserRating - loserRating⟩

/-- The rating updates issued by `handleComparison` (lines 641-642): the
winner's new rating when its change is nonzero, then the loser's. -/
noncomputable def compUpdates (winnerId loserId : String) (r : CompResult) : List (String × ℤ) :=
  (if r.winnerChange ≠ 0 then [(winnerId, r.newWinnerRating)] else []) ++
    (if r.loserChange ≠ 0 then [(loserId, r.newLoserRating)] else [])

/-- `finalizeGauntletLoss(championId, winnerRating)` (lines 648-653):
returns the new rating `max(1, winnerRating - 1)` and the single rating
update it issues.  This function has no call site anywhere in the source. -/
def finalizeGauntletLoss (championId : String) (winnerRating : ℤ) : ℤ × List (String × ℤ) :=
  let newRating := max 1 (winnerRating - 1)
  (newRating, [(championId, newRating)])

/-- The Swiss outcome exactly as the specification states it: new ratings
`min(100, max(1, w + max(1, round(8 * (1 - 1/(1 + 10^((l-w)/40)))))))` and
`min(100, max(1, l - max(1, round(8 * (1/(1 + 10^((l-w)/40)))))))`. -/
noncomputable def specSwissNewRatings (w l : ℤ) : ℤ × ℤ :=
  (min 100 (max 1 (w + max 1 (round ((8 : ℝ) *
      (1 - 1 / (1 + (10 : ℝ) ^ (((l : ℝ) - (w : ℝ)) / 40))))))),
   min 100 (max 1 (l - max 1 (round ((8 : ℝ) *
      (1 / (1 + (10 : ℝ) ^ (((l : ℝ) - (w : ℝ)) / 40))))))))

/-- A nullable rating input is valid when, if present, it lies in `[1, 100]`
(the range of the host application's `rating100` field). -/
def ValidRating : Option ℤ → Prop
  | none => True
  | some v => 1 ≤ v ∧ v ≤ 100

instance : DecidablePred ValidRating := by
  intro o
  cases o with
  | none => exact isTrue trivial
  | some v => exact instDecidableAnd

/-- The Gauntlet/Champion Run State held by the free-standing variables
`gauntletChampion`, `gauntletWins`, `gauntletDefeated`, `gauntletFalling`,
`gauntletFallingItem`. -/
structure RunState where
  champion : Option Entity
  wins : ℕ
  defeated : List String
  falling : Bool
  fallingItem : Option Entity
deriving DecidableEq, Repr

/-- The all-null/empty Run State (`NoRun`), as assigned by every reset site
(mode switch, skip, run completion). -/
def resetRunState : RunState := ⟨none, 0, [], false, none⟩

/-- What a pick does besides changing state: either the flow continues with
a new pair, or a Placement terminal screen is shown for an entity at a
final rank and rating. -/
inductive ChooseEvent
  | continued
  | placed (id : String) (rank rating : ℤ)
deriving DecidableEq, Repr

/-- Result of one pick: the new Run State, the rating updates issued
(`updateItemRating` calls, in order), and the follow-up event. -/
structure ChooseResult where
  state : RunState
  updates : List (String × ℤ)
  event : ChooseEvent

/-- The climbing part of the Gauntlet branch of `handleChooseItem`
(lines 2147-2186): compute the comparison outcome, then either extend the
champion's run, dethrone the champion into falling mode, or seed a new run
when no champion exists. -/
noncomputable def chooseGauntletClimb (st : RunState) (left right : Entity)
    (leftRank rightRank : Option ℤ) (winnerId : String)
    (winnerCardRating loserCardRating : Option ℤ) : ChooseResult :=
  let loserId := if winnerId = left.id then right.id else left.id
  let loserRank := if loserId = left.id then leftRank else rightRank
  let winnerItem := if winnerId = left.id then left else right
  let loserItem := if loserId = left.id then left else right
  let r := handleComparison .gauntlet st.champion st.falling st.fallingItem
    winnerId loserId winnerCardRating loserCardRating loserRank
  if isChampionId st.champion winnerId then
    ⟨{ st with
        defeated := st.defeated ++ [loserId]
        wins := st.wins + 1
        champion := st.champion.map fun c => { c with rating100 := some r.newWinnerRating } },
      compUpdates winnerId loserId r, .continued⟩
  else if st.champion.isSome then
    ⟨{ champion := some { winnerItem with rating100 := some r.newWinnerRating }
       wins := 1
       defeated := [winnerId]
       falling := true
       fallingItem := some loserItem },
      compUpdates winnerId loserId r, .continued⟩
  else
    ⟨{ champion := some { winnerItem with rating100 := some r.newWinnerRating }
       wins := 1
       defeated := [loserId]
       falling := st.falling
       fallingItem := st.fallingItem },
      compUpdates winnerId loserId r, .continued⟩

/-- The Gauntlet branch of `handleChooseItem` (lines 2107-2186).  When
`gauntletFalling && gauntletFallingItem` holds (lines 2112-2145): a win by
the falling item places it at `min(100, loserRating + 1)` one rank above
its opponent and issues that single rating update; a loss only appends the
winner's id to `gauntletDefeated` and issues no update.  Otherwise the
climbing logic applies. -/
noncomputable def chooseGauntlet (st : RunState) (left right : Entity)
    (leftRank rightRank : Option ℤ) (winnerId : String)
    (winnerCardRating loserCardRating : Option ℤ) : ChooseResult :=
  match st.falling, st.fallingItem with
  | true, some f =>
    let loserId := if winnerId = left.id then right.id else left.id
    let loserRating := jsDefault50 loserCardRating
    let loserRank := if loserId = left.id then leftRank else rightRank
    if winnerId = f.id then
      let finalRating := min 100 (loserRating + 1)
      let finalRank := max 1 (jsDefault1 loserRank - 1)
      ⟨st, [(f.id, finalRating)], .placed f.id finalRank finalRating⟩
    else
      ⟨{ st with defeated := st.defeated ++ [winnerId] }, [], .continued⟩
  | _, _ =>
    chooseGauntletClimb st left right leftRank rightRank winnerId
      winnerCardRating loserCardRating

/-- The mode-button click handler installed by `openRankingModal`
(lines 2357-2381): when the selected mode differs from the current one the
mode changes, the Run State is reset and a new pair is loaded; otherwise
nothing happens.  Returns (current mode, Run State, whether `loadNewPair`
ran). -/
def modeBtnClick (mode : Mode) (rs : RunState) (newMode : Mode) : Mode × RunState × Bool :=
  if newMode ≠ mode then (newMode, resetRunState, true) else (mode, rs, false)

/-- The skip handler installed by `openRankingModal` (button handler,
lines 2387-2403, and the identical space-key handler, lines 2440-2454):
with an active Gauntlet/Champion run (a champion exists) the request
returns immediately; otherwise, unless the `disableChoice` latch is set,
the Run State is reset in Gauntlet/Champion mode and a new pair is loaded.
Returns (Run State, `disableChoice` latch, whether `loadNewPair` ran). -/
def skipRequest (mode : Mode) (rs : RunState) (disableChoice : Bool) :
    RunState × Bool × Bool :=
  if (mode = .gauntlet ∨ mode = .champion) ∧ rs.champion.isSome then
    (rs, disableChoice, false)
  else if disableChoice then (rs, disableChoice, false)
  else if mode = .gauntlet ∨ mode = .champion then (resetRunState, true, true)
  else (rs, true, true)

/-- JS `Array.prototype.findIndex`: index of the first match, `-1` when
there is none. -/
def jsFindIndex (p : Entity → Bool) (l : List Entity) : ℤ :=
  match l.findIdx? p with
  | some i => (i : ℤ)
  | none => -1

/-- The `belowOpponents` computation of `fetchGauntletPairScenes`
(lines 236-244): entities of the rating-sorted list whose index is
strictly greater than the falling item's index that are neither the
falling item itself nor already in `gauntletDefeated`.  The source filters
on `idx > fallingIndex`; the entities at those indices are exactly the
suffix after the falling item's position, so the index test is rendered as
a `drop`. -/
def belowOpponents (scenes : List Entity) (fid : String) (defeated : List String) :
    List Entity :=
  (scenes.drop (jsFindIndex (fun s => decide (s.id = fid)) scenes + 1).toNat).filter fun s =>
    decide (s.id ≠ fid ∧ s.id ∉ defeated)

/-- How a falling sequence ends: placement at the bottom of the list (with
the final rank and rating assigned there, lines 246-260), placement by a
win ("found floor", lines 2113-2131), or fuel exhaustion of the
simulation (only possible when the supplied outcome list is too short). -/
inductive FallingResult
  | placedBottom (rank rating : ℤ)
  | foundFloor
  | outOfFuel
deriving DecidableEq, Repr

/-- Simulation of the Gauntlet falling loop: each round,
`fetchGauntletPairScenes` either places the falling entity at the bottom
(no untried lower-ranked opponent remains; final rank is the pool size and
the final rating is 1, lines 246-260) or pairs it against the first
untried opponent below; the next outcome bit says whether the falling
entity wins (immediate "found floor" placement) or loses (the opponent's
id is appended to `gauntletDefeated`, line 2134, and the loop continues).
The second component counts the comparisons performed. -/
def fallingRun (scenes : List Entity) (fid : String) :
    List String → List Bool → FallingResult × ℕ
  | defeated, [] =>
    match belowOpponents scenes fid defeated with
    | [] => (.placedBottom (scenes.length : ℤ) 1, 0)
    | _ :: _ => (.outOfFuel, 0)
  | defeated, o :: rest =>
    match belowOpponents scenes fid defeated with
    | [] => (.placedBottom (scenes.length : ℤ) 1, 0)
    | opp :: _ =>
      if o then (.foundFloor, 1)
      else
        let r := fallingRun scenes fid (defeated ++ [opp.id]) rest
        (r.1, r.2 + 1)

theorem jsDefault50_eq_getD {o : Option ℤ} (h : ValidRating o) : jsDefault50 o = o.getD 50 := by
  cases o with
  | none => rfl
  | some v =>
    obtain ⟨h1, h2⟩ := h
    simp only [jsDefault50, Option.getD_some, ite_eq_right_iff]
    intro hv
    omega

theorem belowOpponents_append_sublist (scenes : List Entity) (fid : String)
    (defeated : List String) (x : String) :
    List.Sublist (belowOpponents scenes fid (defeated ++ [x]))
      (belowOpponents scenes fid defeated) := by
  unfold belowOpponents
  refine List.monotone_filter_right _ fun a ha => ?_
  simp only [decide_eq_true_eq] at ha ⊢
  exact ⟨ha.1, fun hm => ha.2 (List.mem_append_left _ hm)⟩

theorem belowOpponents_append_head_lt (scenes : List Entity) (fid : String)
    (defeated : List String) (opp : Entity) (tail : List Entity)
    (h : belowOpponents scenes fid defeated = opp :: tail) :
    (belowOpponents scenes fid (defeated ++ [opp.id])).length <
      (belowOpponents scenes fid defeated).length := by
  have hsub := belowOpponents_append_sublist scenes fid defeated opp.id
  rcases lt_or_eq_of_le hsub.length_le with hlt | heq
  · exact hlt
  · exfalso
    have heqlist := hsub.eq_of_length heq
    have hmem : opp ∈ belowOpponents scenes fid (defeated ++ [opp.id]) := by
      rw [heqlist, h]
      exact List.mem_cons_self _ _
    unfold belowOpponents at hmem
    have hpred := List.of_mem_filter hmem
    simp only [decide_eq_true_eq] at hpred
    exact hpred.2 (List.mem_append_right _ (List.mem_singleton.mpr rfl))

theorem belowOpponents_length_add_one_le (scenes : List Entity) (fid : String)
    (defeated : List String) (hmem : fid ∈ scenes.map Entity.id) :
    (belowOpponents scenes fid defeated).length + 1 ≤ scenes.length := by
  obtain ⟨e, he, heid⟩ := List.mem_map.mp hmem
  have hfind : ∃ i, scenes.findIdx? (fun s => decide (s.id = fid)) = some i := by
    cases hi : scenes.findIdx? (fun s => decide (s.id = fid)) with
    | none =>
      exfalso
      have := List.findIdx?_eq_none_iff.mp hi e he
      simp [heid] at this
    | some i => exact ⟨i, rfl⟩
  obtain ⟨i, hi⟩ := hfind
  have hlen : (belowOpponents scenes fid defeated).length ≤ scenes.length - (i + 1) := by
    unfold belowOpponents jsFindIndex
    rw [hi]
    have h1 : (((i : ℕ) : ℤ) + 1).toNat = i + 1 := by omega
    rw [h1]
    calc (List.filter _ (scenes.drop (i + 1))).length
        ≤ (scenes.drop (i + 1)).length := List.length_filter_le _ _
      _ = scenes.length - (i + 1) := List.length_drop _ _
  have hpos : 1 ≤ scenes.length := List.length_pos.mpr (List.ne_nil_of_mem he)
  omega

theorem fallingRun_le (scenes : List Entity) (fid : String) :
    ∀ (outcomes : List Bool) (defeated : List String),
    (fallingRun scenes fid defeated outcomes).2 ≤ (belowOpponents scenes fid defeated).length ∧
    ((belowOpponents scenes fid defeated).length ≤ outcomes.length →
      (fallingRun scenes fid defeated outcomes).1 ≠ .outOfFuel) ∧
    (∀ rank rating, (fallingRun scenes fid defeated outcomes).1 = .placedBottom rank rating →
      rank = (scenes.length : ℤ) ∧ rating = 1) := by
  intro outcomes
  induction outcomes with
  | nil =>
    intro defeated
    cases hbel : belowOpponents scenes fid defeated with
    | nil =>
      refine ⟨by simp [fallingRun, hbel], fun _ => by simp [fallingRun, hbel], ?_⟩
      intro rank rating hr
      simp [fallingRun, hbel] at hr
      exact ⟨hr.1.symm, hr.2.symm⟩
    | cons opp tail =>
      refine ⟨by simp [fallingRun, hbel], fun hlen => ?_, ?_⟩
      · exfalso
        simp at hlen
      · intro rank rating hr
        simp [fallingRun, hbel] at hr
  | cons o rest ih =>
    intro defeated
    cases hbel : belowOpponents scenes fid defeated with
    | nil =>
      refine ⟨by simp [fallingRun, hbel], fun _ => by simp [fallingRun, hbel], ?_⟩
      intro rank rating hr
      simp [fallingRun, hbel] at hr
      exact ⟨hr.1.symm, hr.2.symm⟩
    | cons opp tail =>
      by_cases ho : o
      · subst ho
        refine ⟨?_, fun _ => by simp [fallingRun, hbel], ?_⟩
        · simp [fallingRun, hbel]
        · intro rank rating hr
          simp [fallingRun, hbel] at hr
      · have ho' : o = false := by simp [ho]
        subst ho'
        obtain ⟨ih1, ih2, ih3⟩ := ih (defeated ++ [opp.id])
        have hdec := belowOpponents_append_head_lt scenes fid defeated opp tail hbel
        rw [hbel] at hdec
        simp only [List.length_cons] at hdec
        refine ⟨?_, fun hlen => ?_, ?_⟩
        · simp only [fallingRun, hbel, Bool.false_eq_true, if_false, List.length_cons]
          omega
        · simp only [fallingRun, hbel, Bool.false_eq_true, if_false]
          apply ih2
          simp only [List.length_cons] at hlen
          omega
        · intro rank rating hr
          simp only [fallingRun, hbel, Bool.false_eq_true, if_false] at hr
          exact ih3 rank rating hr

theorem eloGain_ge_one (w l : ℤ) : 1 ≤ eloGain w l := le_max_left _ _

theorem eloLoss_ge_one (w l : ℤ) : 1 ≤ eloLoss w l := le_max_left _ _

theorem rpow_three_eighths_gt : (2.2 : ℝ) < (10 : ℝ) ^ ((15 : ℝ) / 40) := by
  have h10 : (0 : ℝ) ≤ 10 := by norm_num
  have htpos : 0 < (10 : ℝ) ^ ((15 : ℝ) / 40) := Real.rpow_pos_of_pos (by norm_num) _
  have ht8 : ((10 : ℝ) ^ ((15 : ℝ) / 40)) ^ (8 : ℕ) = 1000 := by
    rw [← Real.rpow_natCast ((10 : ℝ) ^ ((15 : ℝ) / 40)) 8, ← Real.rpow_mul h10]
    have h3 : (15 : ℝ) / 40 * ((8 : ℕ) : ℝ) = ((3 : ℕ) : ℝ) := by push_cast; norm_num
    rw [h3, Real.rpow_natCast]
    norm_num
  by_contra h
  push_neg at h
  have := pow_le_pow_left₀ htpos.le h 8
  rw [ht8] at this
  norm_num at this

theorem rpow_three_eighths_lt : (10 : ℝ) ^ ((15 : ℝ) / 40) < 13 / 3 := by
  have h10 : (0 : ℝ) ≤ 10 := by norm_num
  have ht8 : ((10 : ℝ) ^ ((15 : ℝ) / 40)) ^ (8 : ℕ) = 1000 := by
    rw [← Real.rpow_natCast ((10 : ℝ) ^ ((15 : ℝ) / 40)) 8, ← Real.rpow_mul h10]
    have h3 : (15 : ℝ) / 40 * ((8 : ℕ) : ℝ) = ((3 : ℕ) : ℝ) := by push_cast; norm_num
    rw [h3, Real.rpow_natCast]
    norm_num
  by_contra h
  push_neg at h
  have := pow_le_pow_left₀ (by norm_num : (0 : ℝ) ≤ 13 / 3) h 8
  rw [ht8] at this
  norm_num at this

/-- The ELO loss applied to a champion rated 95 losing against a winner
rated 80 is exactly 2 points. -/
theorem eloLoss_80_95 : eloLoss 80 95 = 2 := by
  unfold eloLoss expectedWinner
  have hcast : ((((95 : ℤ) - 80 : ℤ)) : ℝ) / 40 = (15 : ℝ) / 40 := by norm_num
  rw [hcast]
  have h1 := rpow_three_eighths_gt
  have h2 := rpow_three_eighths_lt
  set t := (10 : ℝ) ^ ((15 : ℝ) / 40) with ht
  have h1t : (0 : ℝ) < 1 + t := by nlinarith
  have hval : (8 : ℝ) * (1 / (1 + t)) = 8 / (1 + t) := by ring
  have hround : round ((8 : ℝ) * (1 / (1 + t))) = 2 := by
    rw [round_eq, hval]
    have hlo : (3 : ℝ) / 2 ≤ 8 / (1 + t) := by
      rw [div_le_div_iff₀ (by norm_num) h1t]
      nlinarith
    have hhi : 8 / (1 + t) < 5 / 2 := by
      rw [div_lt_div_iff₀ h1t (by norm_num)]
      nlinarith
    rw [Int.floor_eq_iff]
    constructor
    · push_cast
      linarith
    · push_cast
      linarith
  rw [hround]
  norm_num

/-- C2: for every Swiss-mode comparison with winner rating `w` and loser
rating `l` (each defaulting to 50 when absent), the outcome computation
returns `newWinnerRating = min(100, max(1, w + max(1, round(8 * (1 -
1/(1 + 10^((l-w)/40)))))))` and `newLoserRating = min(100, max(1, l -
max(1, round(8 * (1/(1 + 10^((l-w)/40)))))))`: the logistic ELO core with
`k = 8`, per-side deltas floored at magnitude 1, and final ratings clamped
to `[1, 100]`. -/
theorem swiss_outcome_matches_spec_formula (champ : Option Entity) (falling : Bool)
    (fallingItem : Option Entity) (winnerId loserId : String) (ow ol : Option ℤ)
    (rank : Option ℤ) (hw : ValidRating ow) (hl : ValidRating ol) :
    ((handleComparison .swiss champ falling fallingItem winnerId loserId ow ol rank).newWinnerRating,
      (handleComparison .swiss champ falling fallingItem winnerId loserId ow ol rank).newLoserRating) =
      specSwissNewRatings (ow.getD 50) (ol.getD 50) := by
  rw [← jsDefault50_eq_getD hw, ← jsDefault50_eq_getD hl]
  simp only [handleComparison, winnerGain, loserLoss, eloGain, eloLoss, expectedWinner,
    specSwissNewRatings, Prod.mk.injEq]
  constructor <;> push_cast <;> ring_nf

theorem swiss_outcome_matches_spec_formula_witness :
    ValidRating (some 60) ∧ ValidRating (none : Option ℤ) ∧
    ((handleComparison .swiss none false none "a" "b" (some 60) none none).newWinnerRating,
      (handleComparison .swiss none false none "a" "b" (some 60) none none).newLoserRating) =
      specSwissNewRatings ((some (60 : ℤ)).getD 50) ((none : Option ℤ).getD 50) :=
  ⟨by decide, by decide,
    swiss_outcome_matches_spec_formula none false none "a" "b" (some 60) none none
      (by decide) (by decide)⟩

/-- C3 counterexample: in a Swiss comparison where the winner already holds
rating 100 (loser at 50), the winner's applied rating change is 0, not of
magnitude at least 1 — the clamp to 100 erases the computed gain. -/
theorem swiss_winner_at_100_change_zero :
    (handleComparison .swiss none false none "a" "b" (some 100) (some 50) none).winnerChange
      = 0 := by
  have hg := eloGain_ge_one (jsDefault50 (some 100)) (jsDefault50 (some 50))
  simp only [handleComparison, winnerGain]
  simp only [jsDefault50] at hg ⊢
  norm_num at hg ⊢
  omega

/-- C3 amended: for every Swiss-mode comparison, the winner's applied
rating change has absolute value at least 1 whenever the winner's
(defaulted) rating is at most 99, and the loser's applied rating change has
absolute value at least 1 whenever the loser's (defaulted) rating is at
least 2; at the clamp boundaries (winner already at 100, loser already at
1) the applied change is 0. -/
theorem swiss_min_delta_amended (champ : Option Entity) (falling : Bool)
    (fallingItem : Option Entity) (winnerId loserId : String) (ow ol : Option ℤ)
    (rank : Option ℤ) :
    (1 ≤ jsDefault50 ow → jsDefault50 ow ≤ 99 →
      1 ≤ |(handleComparison .swiss champ falling fallingItem winnerId loserId ow ol
        rank).winnerChange|) ∧
    (2 ≤ jsDefault50 ol → jsDefault50 ol ≤ 100 →
      1 ≤ |(handleComparison .swiss champ falling fallingItem winnerId loserId ow ol
        rank).loserChange|) := by
  have hg := eloGain_ge_one (jsDefault50 ow) (jsDefault50 ol)
  have hs := eloLoss_ge_one (jsDefault50 ow) (jsDefault50 ol)
  constructor
  · intro h1 h2
    have hch : 1 ≤ (handleComparison .swiss champ falling fallingItem winnerId loserId ow ol
        rank).winnerChange := by
      simp only [handleComparison, winnerGain]
      omega
    calc (1 : ℤ) ≤ _ := hch
      _ ≤ _ := le_abs_self _
  · intro h1 h2
    have hch : (handleComparison .swiss champ falling fallingItem winnerId loserId ow ol
        rank).loserChange ≤ -1 := by
      simp only [handleComparison, loserLoss]
      omega
    calc (1 : ℤ) ≤ -(handleComparison .swiss champ falling fallingItem winnerId loserId ow ol
        rank).loserChange := by omega
      _ ≤ _ := neg_le_abs _

theorem swiss_min_delta_amended_witness :
    (1 ≤ jsDefault50 (some 40) ∧ jsDefault50 (some 40) ≤ 99) ∧
    1 ≤ |(handleComparison .swiss none false none "a" "b" (some 40) (some 70)
      none).winnerChange| :=
  ⟨by decide,
    (swiss_min_delta_amended none false none "a" "b" (some 40) (some 70) none).1
      (by decide) (by decide)⟩

/-- C5: in Gauntlet or Champion mode, a participant that is a Defender
(neither the current champion nor the falling item) has its rating
unchanged by the outcome computation — as winner always, and as loser
whenever it does not hold rank 1 (ratings taken in the valid range
`[1, 100]`). -/
theorem defender_invariance (m : Mode) (hm : m = .gauntlet ∨ m = .champion)
    (champ : Option Entity) (falling : Bool) (fallingItem : Option Entity)
    (winnerId loserId : String) (ow ol : Option ℤ) (rank : Option ℤ) :
    (isChampionId champ winnerId = false → isFallingId falling fallingItem winnerId = false →
      1 ≤ jsDefault50 ow → jsDefault50 ow ≤ 100 →
      (handleComparison m champ falling fallingItem winnerId loserId ow ol rank).winnerChange
        = 0) ∧
    (isChampionId champ loserId = false → isFallingId falling fallingItem loserId = false →
      rank ≠ some 1 → 1 ≤ jsDefault50 ol → jsDefault50 ol ≤ 100 →
      (handleComparison m champ falling fallingItem winnerId loserId ow ol rank).loserChange
        = 0) := by
  constructor
  · intro hcw hfw h1 h2
    rcases hm with hm | hm <;> subst hm <;>
      simp only [handleComparison, winnerGain, hcw, hfw, Bool.or_self, Bool.false_eq_true,
        if_false] <;> omega
  · intro hcl hfl hrk h1 h2
    rcases hm with hm | hm <;> subst hm <;>
      simp only [handleComparison, loserLoss, hcl, hfl, Bool.or_self, Bool.false_eq_true,
        if_false, if_neg hrk] <;> omega

theorem defender_invariance_witness :
    ((Mode.gauntlet = Mode.gauntlet ∨ Mode.gauntlet = Mode.champion) ∧
      isChampionId (some ⟨"c", some 70⟩) "d" = false) ∧
    (handleComparison .gauntlet (some ⟨"c", some 70⟩) false none "d" "c" (some 40) (some 70)
      (some 5)).winnerChange = 0 :=
  ⟨⟨Or.inl rfl, by decide⟩,
    (defender_invariance .gauntlet (Or.inl rfl) (some ⟨"c", some 70⟩) false none "d" "c"
      (some 40) (some 70) (some 5)).1 (by decide) (by decide) (by decide) (by decide)⟩

/-- C10: in Gauntlet or Champion mode, on the first pick of a run (no
champion and no falling item exist), the computed winner gain is 0 (so the
winner that becomes the new champion gains no rating), and the computed
loser loss is 0 unless the loser holds rank 1, in which case the flat
penalty 1 is computed (an applied change of -1 for valid ratings at least
2). -/
theorem first_pick_deltas_zero (m : Mode) (hm : m = .gauntlet ∨ m = .champion)
    (falling : Bool) (winnerId loserId : String) (ow ol : Option ℤ) (rank : Option ℤ) :
    winnerGain m none falling none winnerId (jsDefault50 ow) (jsDefault50 ol) = 0 ∧
    (1 ≤ jsDefault50 ow → jsDefault50 ow ≤ 100 →
      (handleComparison m none falling none winnerId loserId ow ol rank).winnerChange = 0) ∧
    (rank ≠ some 1 →
      loserLoss m none falling none loserId rank (jsDefault50 ow) (jsDefault50 ol) = 0 ∧
      (1 ≤ jsDefault50 ol → jsDefault50 ol ≤ 100 →
        (handleComparison m none falling none winnerId loserId ow ol rank).loserChange = 0)) ∧
    (rank = some 1 →
      loserLoss m none falling none loserId rank (jsDefault50 ow) (jsDefault50 ol) = 1 ∧
      (2 ≤ jsDefault50 ol → jsDefault50 ol ≤ 100 →
        (handleComparison m none falling none winnerId loserId ow ol rank).loserChange
          = -1)) := by
  have hcw : isChampionId none winnerId = false := rfl
  have hcl : isChampionId none loserId = false := rfl
  have hfw : isFallingId falling none winnerId = false := rfl
  have hfl : isFallingId falling none loserId = false := rfl
  refine ⟨?_, ?_, ?_, ?_⟩
  · rcases hm with hm | hm <;> subst hm <;>
      simp [winnerGain, hcw, hfw]
  · intro h1 h2
    rcases hm with hm | hm <;> subst hm <;>
      simp only [handleComparison, winnerGain, hcw, hfw, Bool.or_self, Bool.false_eq_true,
        if_false] <;> omega
  · intro hrk
    rcases hm with hm | hm <;> subst hm <;>
      constructor <;>
        first
          | simp [loserLoss, hcl, hfl, hrk]
          | (intro h1 h2
             simp only [handleComparison, loserLoss, hcl, hfl, Bool.or_self, Bool.false_eq_true,
               if_false, if_neg hrk]
             omega)
  · intro hrk
    subst hrk
    rcases hm with hm | hm <;> subst hm <;>
      constructor <;>
        first
          | simp [loserLoss, hcl, hfl]
          | (intro h1 h2
             simp only [handleComparison, loserLoss, hcl, hfl, Bool.or_self, Bool.false_eq_true,
               if_false, eq_self_iff_true, if_true]
             omega)

theorem first_pick_deltas_zero_witness :
    ((Mode.gauntlet = Mode.gauntlet ∨ Mode.gauntlet = Mode.champion) ∧
      (1 : ℤ) ≤ jsDefault50 (some 50) ∧ jsDefault50 (some 50) ≤ 100) ∧
    (handleComparison .gauntlet none false none "a" "b" (some 50) (some 50)
      (some 3)).winnerChange = 0 :=
  ⟨⟨Or.inl rfl, by decide⟩,
    (first_pick_deltas_zero .gauntlet (Or.inl rfl) false "a" "b" (some 50) (some 50)
      (some 3)).2.1 (by decide) (by decide)⟩

/-- C4 counterexample: a Defender at rank 1 whose starting rating is
already 1 has an applied rating change of 0, not -1 — the clamp
`max(1, 1 - 1) = 1` erases the flat penalty, so the claimed "-1 for every
starting rating" fails at rating 1. -/
theorem rank1_defender_rating1_change_zero :
    (handleComparison .gauntlet (some ⟨"c", some 60⟩) false none "c" "d" (some 60) (some 1)
      (some 1)).loserChange = 0 := by
  simp [handleComparison, loserLoss, isChampionId, isFallingId, jsDefault50]

/-- C4 amended: for every Gauntlet or Champion mode comparison in which the
loser is a Defender (neither the current champion nor the falling item)
holding rank 1, the computed flat penalty is exactly 1 (non-ELO-scaled, for
every starting rating), and the applied rating change is exactly -1 for
every starting rating in `[2, 100]`; at starting rating 1 the clamp to
`[1, 100]` makes the applied change 0. -/
theorem rank1_dethrone_penalty_amended (m : Mode) (hm : m = .gauntlet ∨ m = .champion)
    (champ : Option Entity) (falling : Bool) (fallingItem : Option Entity)
    (winnerId loserId : String) (ow ol : Option ℤ)
    (hcl : isChampionId champ loserId = false)
    (hfl : isFallingId falling fallingItem loserId = false) :
    loserLoss m champ falling fallingItem loserId (some 1) (jsDefault50 ow) (jsDefault50 ol)
      = 1 ∧
    (2 ≤ jsDefault50 ol → jsDefault50 ol ≤ 100 →
      (handleComparison m champ falling fallingItem winnerId loserId ow ol
        (some 1)).loserChange = -1) := by
  constructor
  · rcases hm with hm | hm <;> subst hm <;> simp [loserLoss, hcl, hfl]
  · intro h1 h2
    rcases hm with hm | hm <;> subst hm <;>
      simp only [handleComparison, loserLoss, hcl, hfl, Bool.or_self, Bool.false_eq_true,
        if_false, eq_self_iff_true, if_true] <;> omega

theorem rank1_dethrone_penalty_amended_witness :
    ((Mode.gauntlet = Mode.gauntlet ∨ Mode.gauntlet = Mode.champion) ∧
      isChampionId (some ⟨"c", some 60⟩) "d" = false) ∧
    (handleComparison .gauntlet (some ⟨"c", some 60⟩) false none "c" "d" (some 60) (some 40)
      (some 1)).loserChange = -1 :=
  ⟨⟨Or.inl rfl, by decide⟩,
    (rank1_dethrone_penalty_amended .gauntlet (Or.inl rfl) (some ⟨"c", some 60⟩) false none
      "c" "d" (some 60) (some 40) (by decide) (by decide)).2 (by decide) (by decide)⟩

/-- C1: in Gauntlet mode, when the current champion (rank 1, rated 95)
loses to a challenger rated 80, the executed dethronement path runs
`handleComparison`, which drops the old champion by the ELO-scaled loss 2
to rating 93 and issues that update, while the `max(1, winnerRating - 1)`
placement (which would give 79, matching the claim) lives only in
`finalizeGauntletLoss`, a function with no call site. -/
theorem gauntlet_dethrone_applies_elo_loss :
    (chooseGauntlet ⟨some ⟨"c", some 95⟩, 3, [], false, none⟩ ⟨"c", some 95⟩ ⟨"ch", some 80⟩
        (some 1) (some 2) "ch" (some 80) (some 95)).updates = [("c", 93)] ∧
    (chooseGauntlet ⟨some ⟨"c", some 95⟩, 3, [], false, none⟩ ⟨"c", some 95⟩ ⟨"ch", some 80⟩
        (some 1) (some 2) "ch" (some 80) (some 95)).state =
      ⟨some ⟨"ch", some 80⟩, 1, ["ch"], true, some ⟨"c", some 95⟩⟩ ∧
    (finalizeGauntletLoss "c" 80).1 = 79 := by
  have hr : handleComparison .gauntlet (some ⟨"c", some 95⟩) false none "ch" "c" (some 80)
      (some 95) (some 1) = ⟨80, 93, 0, -2⟩ := by
    simp [handleComparison, winnerGain, loserLoss, isChampionId, isFallingId,
      jsDefault50, eloLoss_80_95]
  refine ⟨?_, ?_, by norm_num [finalizeGauntletLoss]⟩ <;>
    simp [chooseGauntlet, chooseGauntletClimb, isChampionId, hr, compUpdates]

/-- C6: every Gauntlet falling sequence over a pool containing the falling
entity performs at most `N - 1` comparisons (`N` = pool size): with at
least `N - 1` outcome bits the simulation never runs out of fuel — it ends
either with a "found floor" win or with a bottom placement, and a bottom
placement always carries the last rank `N` and rating 1. -/
theorem falling_terminates_within_pool (scenes : List Entity) (fid : String)
    (defeated : List String) (outcomes : List Bool)
    (hmem : fid ∈ scenes.map Entity.id) :
    (fallingRun scenes fid defeated outcomes).2 ≤ scenes.length - 1 ∧
    (scenes.length - 1 ≤ outcomes.length →
      (fallingRun scenes fid defeated outcomes).1 ≠ .outOfFuel) ∧
    (∀ rank rating, (fallingRun scenes fid defeated outcomes).1 = .placedBottom rank rating →
      rank = (scenes.length : ℤ) ∧ rating = 1) := by
  obtain ⟨h1, h2, h3⟩ := fallingRun_le scenes fid outcomes defeated
  have hb := belowOpponents_length_add_one_le scenes fid defeated hmem
  exact ⟨by omega, fun h => h2 (by omega), h3⟩

theorem falling_terminates_within_pool_witness :
    ("b" ∈ ([⟨"a", some 50⟩, ⟨"b", some 40⟩, ⟨"c", some 30⟩] : List Entity).map Entity.id) ∧
    (fallingRun [⟨"a", some 50⟩, ⟨"b", some 40⟩, ⟨"c", some 30⟩] "b" [] [false, false]).2
      ≤ ([⟨"a", some 50⟩, ⟨"b", some 40⟩, ⟨"c", some 30⟩] : List Entity).length - 1 :=
  ⟨by decide,
    (falling_terminates_within_pool [⟨"a", some 50⟩, ⟨"b", some 40⟩, ⟨"c", some 30⟩] "b" []
      [false, false] (by decide)).1⟩

/-- C7: clicking the mode button of the already-active mode leaves the
current mode and the whole Run State unchanged and loads no new pair,
while clicking a different mode's button resets the Run State to `NoRun`
and loads a new pair — the reset happens exactly when the selected mode
differs. -/
theorem mode_switch_idempotent (m newMode : Mode) (rs : RunState) :
    (newMode = m → modeBtnClick m rs newMode = (m, rs, false)) ∧
    (newMode ≠ m → modeBtnClick m rs newMode = (newMode, resetRunState, true)) := by
  constructor <;> intro h <;> simp [modeBtnClick, h]

theorem mode_switch_idempotent_witness :
    (Mode.gauntlet = Mode.gauntlet) ∧
    modeBtnClick .gauntlet ⟨some ⟨"c", some 70⟩, 2, ["d"], false, none⟩ .gauntlet =
      (.gauntlet, ⟨some ⟨"c", some 70⟩, 2, ["d"], false, none⟩, false) :=
  ⟨rfl,
    (mode_switch_idempotent .gauntlet .gauntlet
      ⟨some ⟨"c", some 70⟩, 2, ["d"], false, none⟩).1 rfl⟩

/-- C8: while a Gauntlet or Champion run is active (a champion exists), a
skip request (button or space key) changes nothing — neither the Run State
nor the latch — and loads no new pair; in Swiss mode (latch clear) a skip
leaves the Run State untouched and loads a new independent pair. -/
theorem skip_rejected_in_active_run (m : Mode) (rs : RunState) (d : Bool) (c : Entity) :
    ((m = .gauntlet ∨ m = .champion) → rs.champion = some c →
      skipRequest m rs d = (rs, d, false)) ∧
    skipRequest .swiss rs false = (rs, true, true) := by
  constructor
  · intro hm hc
    simp [skipRequest, hm, hc]
  · simp [skipRequest]

theorem skip_rejected_in_active_run_witness :
    ((Mode.gauntlet = Mode.gauntlet ∨ Mode.gauntlet = Mode.champion) ∧
      (RunState.mk (some ⟨"c", some 70⟩) 2 ["d"] false none).champion = some ⟨"c", some 70⟩) ∧
    skipRequest .gauntlet ⟨some ⟨"c", some 70⟩, 2, ["d"], false, none⟩ false =
      (⟨some ⟨"c", some 70⟩, 2, ["d"], false, none⟩, false, false) :=
  ⟨⟨Or.inl rfl, rfl⟩,
    (skip_rejected_in_active_run .gauntlet ⟨some ⟨"c", some 70⟩, 2, ["d"], false, none⟩
      false ⟨"c", some 70⟩).1 (Or.inl rfl) rfl⟩

/-- C9: in Gauntlet falling mode, when the falling entity loses a
comparison, the whole result is: the winner's id is appended to the
defeated/tried set, no rating update is issued, and the flow continues —
champion, wins, falling flag and falling item are untouched. -/
theorem falling_loss_only_appends_defeated (champ : Option Entity) (wins : ℕ)
    (defeated : List String) (f left right : Entity) (leftRank rightRank : Option ℤ)
    (winnerId : String) (wc lc : Option ℤ) (hw : winnerId ≠ f.id) :
    chooseGauntlet ⟨champ, wins, defeated, true, some f⟩ left right leftRank rightRank
        winnerId wc lc =
      ⟨⟨champ, wins, defeated ++ [winnerId], true, some f⟩, [], .continued⟩ := by
  simp [chooseGauntlet, hw]

theorem falling_loss_only_appends_defeated_witness :
    ("w" ≠ (Entity.mk "f" (some 40)).id) ∧
    chooseGauntlet ⟨some ⟨"ch", some 80⟩, 1, ["ch"], true, some ⟨"f", some 40⟩⟩
        ⟨"f", some 40⟩ ⟨"w", some 30⟩ (some 5) (some 6) "w" (some 30) (some 40) =
      ⟨⟨some ⟨"ch", some 80⟩, 1, ["ch", "w"], true, some ⟨"f", some 40⟩⟩, [], .continued⟩ :=
  ⟨by decide,
    falling_loss_only_appends_defeated (some ⟨"ch", some 80⟩) 1 ["ch"] ⟨"f", some 40⟩
      ⟨"f", some 40⟩ ⟨"w", some 30⟩ (some 5) (some 6) "w" (some 30) (some 40) (by decide)⟩

end HotOrNot
